import Mathlib

/-!
Verification development for the resource-store core of `react-resource-router`
(`src/controllers/resource-store`).

The TypeScript source is shallowly embedded as follows.

* JS objects used as string-keyed maps (`state.data`, `data[type]`,
  `Object.fromEntries(...)`) are association lists `List (String × β)` with
  JS object semantics: updating an existing key keeps its position and
  replaces its value, a new key is appended; lookup finds the first match.
* A `ResourceSlice` is the record `Slice`; JS `null`/`undefined` fields are
  `Option`.  `data` and `promise` hold a `RefId : Nat`, the identity of the
  JS value or promise (the source only ever compares these fields with
  `===`, so the identity is all that matters).
* Error values (`ErrVal`) model what the source inspects about a JS error:
  its `name`, its `message`, whether it is an `instanceof Error`, and
  whether it is an `instanceof TimeoutError`.  A serialized error record
  `{name, message, stack}` is an `ErrVal` with both instance flags `false`.
* Asynchronous code is split at its `await` points: the synchronous part of
  `getResourceFromRemote` (up to the race) is `getRFR_sync`, and the
  completion step after the race is `getRFR_complete`, which receives the
  outcome of the race (`RaceResult`) and the store state at completion time.
* Store actions (`react-sweet-state` `dispatch`) are functions
  `State → State × result`; the sequencing in `executeTuples` threads the
  state explicitly and models a thrown JS exception as `Except.error`.
* Current time (`Date.now()`) is passed in as an explicit `now : Int`.
* Code of the repository that is not part of the reviewed sources
  (selectors, the freshness helpers, the error codec, `transformData`, the
  LRU validator) is modelled from the specification; each such definition
  carries a doc comment starting with `Modelled from the spec:`.
-/

/-! ### Basic data model -/

/-- Identity of an opaque JS value (data value or promise).  The source only
compares these with `===`. -/
abbrev RefId := Nat

abbrev ResourceType := String

abbrev ResKey := String

/-- Opaque router/navigation context (never inspected by the core). -/
abbrev RCtx := Nat

/-- The resource store context (`state.context`), an opaque JS object;
`hydrate` inspects only whether it has keys. -/
abbrev Ctx := List (String × String)

/-- What the source observes about a JS error value: `name`, `message`,
`instanceof Error`, `instanceof TimeoutError`.  A portable serialized error
record is represented with both instance flags `false`. -/
structure ErrVal where
  name : String
  message : String
  isError : Bool
  isTimeout : Bool
deriving DecidableEq

/-- One cache entry per (type, key): mirrors `RouteResourceResponse`. -/
structure Slice where
  data : Option RefId
  error : Option ErrVal
  loading : Bool
  promise : Option RefId
  expiresAt : Option Int
  accessedAt : Option Int
  key : ResKey
deriving DecidableEq

abbrev KeyMap := List (ResKey × Slice)

abbrev StoreData := List (ResourceType × KeyMap)

/-- Opaque handle for a pending store action held in an execution round. -/
abbrev ActionV := Nat

/-- A route resource definition (the fields the reviewed code reads). -/
structure RouteResource where
  type : ResourceType
  getKey : RCtx → Ctx → ResKey
  maxAge : Int
  depends : Option (List ResourceType)
  maxCache : Option Nat

/-- One entry of an execution round: `ExecutionMaybeTuple`. -/
abbrev RoundEntry := RouteResource × Option ActionV

abbrev Round := List RoundEntry

/-- The resource store state (`State` of `resource-store/types`). -/
structure State where
  data : StoreData
  context : Ctx
  executing : Option Round

/-! ### JS object primitives over association lists -/

/-- JS object update `{...m, [k]: v}`: an existing key keeps its position and
gets the new value, a fresh key is appended. -/
def objInsert {β : Type} (k : String) (v : β) (m : List (String × β)) :
    List (String × β) :=
  if m.any (fun e => e.1 == k) then
    m.map (fun e => if e.1 == k then (k, v) else e)
  else
    m ++ [(k, v)]

/-- `Object.fromEntries`: later entries win, key order is first occurrence. -/
def objFromEntries {β : Type} (l : List (String × β)) : List (String × β) :=
  l.foldl (fun acc e => objInsert e.1 e.2 acc) []

/-- Read `data[type]?.[key]`. -/
def lookupSlice (d : StoreData) (t : ResourceType) (k : ResKey) : Option Slice :=
  (d.find? (fun e => e.1 == t)).bind
    (fun e => (e.2.find? (fun kv => kv.1 == k)).map (fun kv => kv.2))

/-! ### `utils/manage-resource-state` (from the source) -/

/-- `setResourceState`: spread-writes `data[type][key] = state`. -/
def setResourceState (t : ResourceType) (k : ResKey) (sl : Slice) (s : State) :
    State :=
  let km := ((s.data.find? (fun e => e.1 == t)).map (fun e => e.2)).getD []
  { s with data := objInsert t (objInsert k sl km) s.data }

/-- `getResourceState`: `data[type]?.[key]`. -/
def getResourceState (t : ResourceType) (k : ResKey) (s : State) : Option Slice :=
  lookupSlice s.data t k

/-- `deleteResourceState`: rest-destructures `key` out of `data[type]`.  The
source throws if `data[type]` is absent; both call sites guard on the slice
existing, so that branch is unreachable and is modelled as a no-op. -/
def deleteResourceState (t : ResourceType) (k : ResKey) (s : State) : State :=
  match s.data.find? (fun e => e.1 == t) with
  | none => s
  | some e => { s with data := objInsert t (e.2.filter (fun kv => !(kv.1 == k))) s.data }

/-! ### Helpers modelled from the spec (code outside the reviewed sources) -/

/-- Modelled from the spec: the selector `getSliceForResource` returns the
stored slice for (type, key), or a fresh initial slice (no data, no error,
not loading, no timestamps) created on first access. -/
def getSliceForResource (d : StoreData) (t : ResourceType) (k : ResKey) : Slice :=
  (lookupSlice d t k).getD
    { data := none, error := none, loading := false, promise := none,
      expiresAt := none, accessedAt := none, key := k }

/-- Modelled from the spec: `getExpiresAt(maxAge)` stamps the current time
plus the cache lifetime. -/
def getExpiresAt (now maxAge : Int) : Int := now + maxAge

/-- Modelled from the spec: `shouldUseCache` is true iff a slice exists, is
not loading, has no error, and its `expiresAt` is null or in the future. -/
def shouldUseCache (sl : Option Slice) (now : Int) : Bool :=
  match sl with
  | none => false
  | some sl =>
    !sl.loading && sl.error.isNone &&
      (match sl.expiresAt with
       | none => true
       | some t => now < t)

/-- Modelled from the spec: the synthetic error raised when the deadline wins
the race; an `Error` instance whose class is `TimeoutError`. -/
def TimeoutError (t : ResourceType) : ErrVal :=
  { name := "TimeoutError", message := t ++ " timed out", isError := true,
    isTimeout := true }

/-- Modelled from the spec: the Error Codec's encoder produces the portable
record `{name, message, stack}` of an `Error`. -/
def serializeError (e : ErrVal) : ErrVal :=
  { name := e.name, message := e.message, isError := false, isTimeout := false }

/-- Modelled from the spec: the Error Codec's decoder builds a plain `Error`
carrying the record's `name` and `message` (it is not an instance of any
specific error subclass). -/
def deserializeError (e : ErrVal) : ErrVal :=
  { name := e.name, message := e.message, isError := true, isTimeout := false }

/-- Modelled from the spec: `JSON.stringify` of a thrown non-`Error` value;
the value's printable content is carried in its `message` field. -/
def jsonStringify (e : ErrVal) : String := e.message

/-- Modelled from the spec: `transformData` maps a function over every slice
of every type of a data mapping. -/
def transformData (d : StoreData) (f : Slice → Slice) : StoreData :=
  d.map (fun e => (e.1, e.2.map (fun kv => (kv.1, f kv.2))))

/-- Oldest-`accessedAt` key of a key map (ties keep the first). -/
def oldestAccessedKey (km : KeyMap) : Option ResKey :=
  (km.foldl
      (fun acc kv =>
        match acc with
        | none => some (kv.1, (kv.2.accessedAt).getD 0)
        | some p => if (kv.2.accessedAt).getD 0 < p.2 then some (kv.1, (kv.2.accessedAt).getD 0) else acc)
      none).map (fun p => p.1)

def evictOldest (km : KeyMap) : KeyMap :=
  match oldestAccessedKey km with
  | none => km
  | some k => km.filter (fun kv => !(kv.1 == k))

def evictToBound (n : Nat) : Nat → KeyMap → KeyMap
  | 0, km => km
  | fuel + 1, km => if km.length < n then km else evictToBound n fuel (evictOldest km)

/-- Modelled from the spec: `validateLRUCache` — before admitting a fetch for
a key not already present for a type that sets a maximum entry count, evict
oldest-`accessedAt` entries of that type until the count is within bound. -/
def validateLRUCache (resource : RouteResource) (k : ResKey) (s : State) : State :=
  match resource.maxCache with
  | none => s
  | some n =>
    let km := ((s.data.find? (fun e => e.1 == resource.type)).map (fun e => e.2)).getD []
    if km.any (fun kv => kv.1 == k) then s
    else { s with data := objInsert resource.type (evictToBound n km.length km) s.data }

/-- JS truthiness of the `timeout` option (`if (timeout)`). -/
def timeoutTruthy : Option Int → Bool
  | none => false
  | some n => !(n == 0)

/-! ### `utils/dependent-resources` (from the source) -/

def reentrancyMsg : String := "execution is already in progress"

def inconsistentMsg : String := "execution reached an inconsistent state"

/-- The JS `filter((v, i, a) => a.indexOf(v) === i)`: unique values keeping
the first occurrence. -/
def uniqueFirst (l : List ResourceType) : List ResourceType :=
  l.foldl (fun acc v => if v ∈ acc then acc else acc ++ [v]) []

/-- `triggers`: the unique resource types that appear as a `depends` target
anywhere in the route's resources. -/
def triggersOf (routeResources : Option (List RouteResource)) :
    List ResourceType :=
  uniqueFirst ((routeResources.getD []).flatMap (fun r => r.depends.getD []))

/-- The condition under which a route resource is included in the execution
round: it declares dependencies itself, or it triggers a dependent. -/
def execCond (triggers : List ResourceType) (r : RouteResource) : Bool :=
  !(r.depends.getD []).isEmpty || triggers.contains r.type

/-- The `reduce` building the `executing` round: walk the route's resources
in declaration order, include those satisfying `execCond`, paired with their
explicit tuple from the batch if present, else a `null` action. -/
def buildRound (rr : List RouteResource) (tuples : List (RouteResource × ActionV))
    (triggers : List ResourceType) : Round :=
  rr.foldl
    (fun acc resource =>
      if execCond triggers resource then
        acc ++ [match tuples.find? (fun t => t.1.type == resource.type) with
                | some tu => (tu.1, some tu.2)
                | none => (resource, none)]
      else acc)
    []

/-- Dispatch a list of batch actions sequentially (the fast path's
`tuples.map(([, action]) => dispatch(action))`); a thrown exception
propagates with the state it threw in. -/
def runSeq {R : Type} (dA : ActionV → State → State × Except String R) :
    List (RouteResource × ActionV) → State → State × Except String (List (Option R))
  | [], s => (s, .ok [])
  | tu :: rest, s =>
    match dA tu.2 s with
    | (s1, .error e) => (s1, .error e)
    | (s1, .ok r) =>
      match runSeq dA rest s1 with
      | (s2, .error e) => (s2, .error e)
      | (s2, .ok rs) => (s2, .ok (some r :: rs))

/-- The in-round dispatch loop: iterate over the types of the originally
installed round, re-reading the current round from shared state at each
index, asserting the type at that position is unchanged, and dispatching the
entry's action when present.  Accumulates `(type, result-or-undefined)`
pairs for `Object.fromEntries`. -/
def roundLoop {R : Type} (dA : ActionV → State → State × Except String R) :
    List ResourceType → Nat → State → List (ResourceType × Option R) →
    State × Except String (List (ResourceType × Option R))
  | [], _, s, acc => (s, .ok acc.reverse)
  | t :: rest, i, s, acc =>
    match (s.executing.getD []).get? i with
    | none => (s, .error inconsistentMsg)
    | some entry =>
      if entry.1.type == t then
        match entry.2 with
        | none => roundLoop dA rest (i + 1) s ((t, none) :: acc)
        | some a =>
          match dA a s with
          | (s1, .error e) => (s1, .error e)
          | (s1, .ok r) => roundLoop dA rest (i + 1) s1 ((t, some r) :: acc)
      else (s, .error inconsistentMsg)

/-- The final mapping over the requested tuples: an executed type picks its
round result (possibly `undefined`), any other tuple's action is dispatched
now; dispatches thread the state and a throw propagates. -/
def finishSeq {R : Type} (dA : ActionV → State → State × Except String R)
    (resultMap : List (ResourceType × Option R)) :
    List (RouteResource × ActionV) → State → State × Except String (List (Option R))
  | [], s => (s, .ok [])
  | tu :: rest, s =>
    match resultMap.find? (fun e => e.1 == tu.1.type) with
    | some e =>
      match finishSeq dA resultMap rest s with
      | (s1, .error err) => (s1, .error err)
      | (s1, .ok rs) => (s1, .ok (e.2 :: rs))
    | none =>
      match dA tu.2 s with
      | (s1, .error err) => (s1, .error err)
      | (s1, .ok r) =>
        match finishSeq dA resultMap rest s1 with
        | (s2, .error err) => (s2, .error err)
        | (s2, .ok rs) => (s2, .ok (some r :: rs))

/-- `executeTuples`: fail fast on a live round, fast-path dispatch when the
batch triggers no dependent, otherwise install the round, run it
sequentially, clear it, and assemble the results. -/
def executeTuples {R : Type} (dA : ActionV → State → State × Except String R)
    (routeResources : Option (List RouteResource))
    (tuples : List (RouteResource × ActionV)) (s : State) :
    State × Except String (List (Option R)) :=
  if s.executing.isSome then (s, .error reentrancyMsg)
  else
    let triggers := triggersOf routeResources
    let willExecuteAnyTrigger :=
      !triggers.isEmpty && tuples.any (fun tu => triggers.contains tu.1.type)
    match if willExecuteAnyTrigger then routeResources else none with
    | none => runSeq dA tuples s
    | some rr =>
      let executing := buildRound rr tuples triggers
      let s1 := { s with executing := some executing }
      match roundLoop dA (executing.map (fun e => e.1.type)) 0 s1 [] with
      | (s2, .error e) => (s2, .error e)
      | (s2, .ok pairs) =>
        let s3 := { s2 with executing := none }
        finishSeq dA (objFromEntries pairs) tuples s3

/-- `executeForDependents`: if the committing resource's type is in the
current round, replace the pending action of every entry strictly after its
index whose `depends` includes that type with a freshly created action for
that entry's resource. -/
def executeForDependents (t : ResourceType) (mk : RouteResource → ActionV)
    (s : State) : State :=
  match s.executing with
  | none => s
  | some cur =>
    match cur.findIdx? (fun e => e.1.type == t) with
    | none => s
    | some i =>
      { s with executing := some (cur.mapIdx (fun j e =>
          if i < j ∧ t ∈ e.1.depends.getD []
          then (e.1, some (mk e.1)) else e)) }

/-- `getDependencies`: while a round is active and the resource declares a
non-empty `depends` list, return the `Object.fromEntries` of the
(type, slice) pairs of the round entries whose type is in `depends`;
otherwise `null`. -/
def getDependenciesVal (resource : RouteResource) (routerCtx : RCtx)
    (s : State) : Option (List (ResourceType × Slice)) :=
  match s.executing, resource.depends with
  | some executing, some depends =>
    if depends.isEmpty then none
    else some (objFromEntries
      ((executing.filter (fun e => depends.contains e.1.type)).map (fun e =>
        (e.1.type,
          getSliceForResource s.data e.1.type (e.1.getKey routerCtx s.context)))))
  | some _, none => none
  | none, _ => none

/-! ### `resource-store/index` private actions (from the source) -/

def PREFETCH_MAX_AGE : Int := 10000

/-- Result of the synchronous part of `getResourceFromRemote`, up to the
first `await`. -/
inductive FetchPhase1 where
  | dedup (slice : Slice)
  | identical (slice : Slice)
  | pending (slice : Slice)
deriving DecidableEq

/-- The synchronous prefix of `privateActions.getResourceFromRemote`:
single-flight dedup, LRU validation, `getData` invocation with the in-round
dependency values, reference-identity short-circuit, pending-slice commit
and dependent propagation.  The external loader is the function `getData`
(receiving the `isPrefetch` flag and the dependency values) and returns the
identity of its promise-or-data; `mk` creates the refresh action installed
on dependents. -/
def getRFR_sync (resource : RouteResource) (routerCtx : RCtx) (prefetch : Bool)
    (getData : Bool → Option (List (ResourceType × Slice)) → RefId)
    (now : Int) (mk : RouteResource → ActionV) (s : State) :
    State × FetchPhase1 :=
  let key := resource.getKey routerCtx s.context
  let prevSlice := getSliceForResource s.data resource.type key
  if prevSlice.loading then (s, .dedup prevSlice)
  else
    let s1 := validateLRUCache resource key s
    let promiseOrData := getData prefetch (getDependenciesVal resource routerCtx s1)
    if prevSlice.data = some promiseOrData then (s1, .identical prevSlice)
    else
      let pendingSlice : Slice :=
        { prevSlice with
          data := if resource.maxAge = 0 then none else prevSlice.data,
          error := if resource.maxAge = 0 then none else prevSlice.error,
          loading := true,
          promise := some promiseOrData,
          accessedAt := some now }
      let s2 := setResourceState resource.type key pendingSlice s1
      (executeForDependents resource.type mk s2, .pending pendingSlice)

/-- Outcome of awaiting the loader, optionally raced against the deadline. -/
inductive RaceResult where
  | deadlineWon
  | loaded (v : RefId)
  | failed (e : ErrVal)
deriving DecidableEq

/-- The completion step of `privateActions.getResourceFromRemote` after the
`await`: interpret the race outcome into the response slice, stamp
`expiresAt` (with the prefetch floor) and `accessedAt`, and commit the
response only if the (type, key) entry still exists at completion time. -/
def getRFR_complete (t : ResourceType) (key : ResKey) (maxAge : Int)
    (prefetch : Bool) (timeout : Option Int) (pendingSlice : Slice)
    (outcome : RaceResult) (now : Int) (s : State) : State × Slice :=
  let r0 := { pendingSlice with error := none }
  let r1 :=
    if timeoutTruthy timeout then
      match outcome with
      | .deadlineWon =>
        { r0 with data := none, error := some (TimeoutError t),
                  loading := true, promise := none }
      | .loaded v => { r0 with data := some v, loading := false }
      | .failed e => { r0 with error := some e, loading := false }
    else
      match outcome with
      | .deadlineWon => r0
      | .loaded v => { r0 with data := some v, loading := false }
      | .failed e => { r0 with error := some e, loading := false }
  let r2 :=
    { r1 with
      expiresAt := some (getExpiresAt now
        (if prefetch && decide (maxAge < PREFETCH_MAX_AGE) then PREFETCH_MAX_AGE
         else maxAge)),
      accessedAt := some now }
  if (getResourceState t key s).isSome then (setResourceState t key r2 s, r2)
  else (s, r2)

/-- `privateActions.updateResourceState`: write the updated slice, then
propagate to dependents only when the new `data` differs from the previous
`data`. -/
def updateResourceState (resource : RouteResource) (routerCtx : RCtx)
    (getNewSliceData : Option RefId → Option RefId) (now : Int)
    (mk : RouteResource → ActionV) (s : State) : State :=
  let key := resource.getKey routerCtx s.context
  let prevSlice := getSliceForResource s.data resource.type key
  let newSlice :=
    { prevSlice with
      data := getNewSliceData prevSlice.data,
      expiresAt := some (getExpiresAt now resource.maxAge),
      accessedAt := some now }
  let s1 := setResourceState resource.type key newSlice s
  if newSlice.data ≠ prevSlice.data then executeForDependents resource.type mk s1
  else s1

/-! ### `resource-store/index` public actions (from the source) -/

/-- `getNextStateValue` inside `hydrate`: take `next` only when `prev` has no
keys and `next` exists and has keys. -/
def getNextStateValue {β : Type} (prev : List (String × β))
    (next : Option (List (String × β))) : List (String × β) :=
  match next with
  | some n => if prev.isEmpty && !n.isEmpty then n else prev
  | none => prev

/-- The per-slice transform applied by `hydrate`: decode the error; a
decoded error named `TimeoutError` forces `expiresAt` into the past and
`loading` to `false`. -/
def hydrateSlice (now : Int) (sl : Slice) : Slice :=
  let deserializedError := match sl.error with
    | none => none
    | some e => some (deserializeError e)
  let isTimeoutError : Bool := match deserializedError with
    | some d => d.name == "TimeoutError"
    | none => false
  { sl with
    expiresAt := if isTimeoutError then some (now - 1) else sl.expiresAt,
    loading := if isTimeoutError then false else sl.loading,
    error := deserializedError }

/-- `actions.hydrate`: choose the snapshot's data/context only over an empty
current field, then run every slice of the chosen data through
`hydrateSlice`. -/
def hydrate (resourceData : Option StoreData) (resourceContext : Option Ctx)
    (now : Int) (s : State) : State :=
  { s with
    data := transformData (getNextStateValue s.data resourceData) (hydrateSlice now),
    context := getNextStateValue s.context resourceContext }

/-- The deletion test of `cleanExpiredResources`:
`!slice.expiresAt || slice.expiresAt < Date.now()` (JS falsiness: `null`
and `0` both pass the first disjunct). -/
def expiredOrFalsy (o : Option Int) (now : Int) : Bool :=
  match o with
  | none => true
  | some t => t == 0 || decide (t < now)

/-- One iteration of `cleanExpiredResources`' loop over the given resources;
`ctx` is the store context read once before the loop. -/
def cleanStep (routerCtx : RCtx) (ctx : Ctx) (now : Int) (s : State)
    (resource : RouteResource) : State :=
  let key := resource.getKey routerCtx ctx
  match getResourceState resource.type key s with
  | none => s
  | some slice =>
    if expiredOrFalsy slice.expiresAt now
    then deleteResourceState resource.type key s
    else s

/-- `actions.cleanExpiredResources`. -/
def cleanExpiredResources (resources : List RouteResource) (routerCtx : RCtx)
    (now : Int) (s : State) : State :=
  resources.foldl (cleanStep routerCtx s.context now) s

/-- `new Error(JSON.stringify(error))`: wrap a thrown non-`Error` value in a
fresh `Error`. -/
def wrapNonError (e : ErrVal) : ErrVal :=
  { name := "Error", message := jsonStringify e, isError := true,
    isTimeout := false }

/-- The per-slice transform of `actions.getSafeData`: strip `promise`,
`expiresAt`, `accessedAt`; encode the error (wrapping a non-`Error` value in
an `Error` first); force `loading` to `false` unless the error is an
`instanceof TimeoutError`. -/
def safeSlice (sl : Slice) : Slice :=
  { data := sl.data,
    key := sl.key,
    promise := none,
    expiresAt := none,
    accessedAt := none,
    error := match sl.error with
      | none => none
      | some e => some (serializeError (if e.isError then e else wrapNonError e)),
    loading := match sl.error with
      | some e => if e.isTimeout then sl.loading else false
      | none => false }

/-- `actions.getSafeData`. -/
def getSafeData (s : State) : StoreData :=
  transformData s.data safeSlice

/-! ### Shared helper lemmas -/

theorem executeTuples_reentrant {R : Type}
    (dA : ActionV → State → State × Except String R)
    (routeResources : Option (List RouteResource))
    (tuples : List (RouteResource × ActionV)) (s : State)
    (h : s.executing.isSome = true) :
    executeTuples dA routeResources tuples s = (s, .error reentrancyMsg) := by
  simp [executeTuples, h]

theorem roundLoop_preserves_isSome {R : Type}
    (dA : ActionV → State → State × Except String R)
    (hpres : ∀ a st, st.executing.isSome = true →
      ((dA a st).1.executing.isSome = true)) :
    ∀ (types : List ResourceType) (i : Nat) (s : State)
      (acc : List (ResourceType × Option R)),
      s.executing.isSome = true →
      (roundLoop dA types i s acc).1.executing.isSome = true := by
  intro types
  induction types with
  | nil => intro i s acc hs; simpa [roundLoop] using hs
  | cons t rest ih =>
    intro i s acc hs
    simp only [roundLoop]
    cases hget : (s.executing.getD []).get? i with
    | none => simpa using hs
    | some entry =>
      simp only
      by_cases hty : entry.1.type == t
      · simp only [hty, if_true]
        cases hact : entry.2 with
        | none => exact ih (i + 1) s ((t, none) :: acc) hs
        | some a =>
          dsimp only
          cases hda : dA a s with
          | mk s1 res =>
            have hs1 : s1.executing.isSome = true := by
              have := hpres a s hs
              rwa [hda] at this
            cases res with
            | error e => simpa using hs1
            | ok r => exact ih (i + 1) s1 ((t, some r) :: acc) hs1
      · simp only [hty, if_false]
        simpa using hs

/-! ### Concrete fixtures used by witnesses and counterexamples -/

def resA : RouteResource :=
  { type := "A", getKey := fun _ _ => "k", maxAge := 1000, depends := none,
    maxCache := none }

def resB : RouteResource :=
  { type := "B", getKey := fun _ _ => "kb", maxAge := 1000,
    depends := some ["A"], maxCache := none }

def sliceA : Slice :=
  { data := some 5, error := none, loading := false, promise := none,
    expiresAt := some 99999, accessedAt := some 0, key := "k" }

def stateInRound : State :=
  { data := [("A", [("k", sliceA)])], context := [],
    executing := some [(resA, some 10), (resB, some 11)] }

def stateIdle : State :=
  { data := [("A", [("k", sliceA)])], context := [], executing := none }

def stateLoading : State :=
  { data := [("A", [("k", { sliceA with loading := true })])], context := [],
    executing := none }

/-! ### Claims C5, C6, C7 -/

/-- C5: if the existing slice for the computed (type, key) is `loading`, the
remote fetch path returns that slice unchanged, writes no state, and never
invokes the loader (the result is the same for every `getData` and every
refresh-action constructor). -/
theorem c5_single_flight_dedup (resource : RouteResource) (routerCtx : RCtx)
    (prefetch : Bool)
    (getData : Bool → Option (List (ResourceType × Slice)) → RefId)
    (now : Int) (mk : RouteResource → ActionV) (s : State)
    (h : (getSliceForResource s.data resource.type
           (resource.getKey routerCtx s.context)).loading = true) :
    getRFR_sync resource routerCtx prefetch getData now mk s =
      (s, .dedup (getSliceForResource s.data resource.type
        (resource.getKey routerCtx s.context))) := by
  simp [getRFR_sync, h]

theorem c5_witness :
    (getSliceForResource stateLoading.data resA.type
       (resA.getKey 0 stateLoading.context)).loading = true ∧
    getRFR_sync resA 0 false (fun _ _ => 7) 100 (fun _ => 42) stateLoading =
      (stateLoading, .dedup (getSliceForResource stateLoading.data resA.type
        (resA.getKey 0 stateLoading.context))) :=
  ⟨rfl, c5_single_flight_dedup resA 0 false (fun _ _ => 7) 100 (fun _ => 42)
    stateLoading rfl⟩

/-- C6: when the (type, key) entry no longer exists at completion time, the
completion step of the fetch performs no write: the state is unchanged and
the data mapping still has no entry for that (type, key). -/
theorem c6_no_resurrection (t : ResourceType) (key : ResKey) (maxAge : Int)
    (prefetch : Bool) (timeout : Option Int) (pendingSlice : Slice)
    (outcome : RaceResult) (now : Int) (s : State)
    (h : getResourceState t key s = none) :
    (getRFR_complete t key maxAge prefetch timeout pendingSlice outcome now s).1 = s ∧
    lookupSlice
      (getRFR_complete t key maxAge prefetch timeout pendingSlice outcome now s).1.data
      t key = none := by
  have h1 :
      (getRFR_complete t key maxAge prefetch timeout pendingSlice outcome now s).1 = s := by
    simp [getRFR_complete, h]
  exact ⟨h1, by rw [h1]; exact h⟩

theorem c6_witness :
    getResourceState "Z" "k" stateIdle = none ∧
    (getRFR_complete "Z" "k" 1000 false none sliceA (.loaded 9) 200 stateIdle).1 =
      stateIdle :=
  ⟨rfl,
    (c6_no_resurrection "Z" "k" 1000 false none sliceA (.loaded 9) 200 stateIdle
      rfl).1⟩

/-- C7: a call to `executeTuples` while `executing` is non-null throws the
re-entrancy error and leaves the state unchanged; since the result is the
same for every dispatch semantics, no action is dispatched. -/
theorem c7_reentrancy_error {R : Type}
    (dA : ActionV → State → State × Except String R)
    (routeResources : Option (List RouteResource))
    (tuples : List (RouteResource × ActionV)) (s : State)
    (h : s.executing.isSome = true) :
    executeTuples dA routeResources tuples s = (s, .error reentrancyMsg) :=
  executeTuples_reentrant dA routeResources tuples s h

theorem c7_witness :
    stateInRound.executing.isSome = true ∧
    executeTuples (R := Nat) (fun _ st => (st, .ok 0)) (some [resA, resB])
      [(resA, 10)] stateInRound = (stateInRound, .error reentrancyMsg) :=
  ⟨rfl, c7_reentrancy_error _ _ _ _ rfl⟩

/-! ### Claim C4 -/

/-- C4: with a (truthy) timeout configured, if the deadline settles first the
response slice has a timeout-kind error, null `data`, `loading` still true
and a cleared pending promise, and it is committed exactly when the entry
still exists; if the loader fulfils first the response is the normal success
outcome (`data` set, `loading` false, `error` null); if the loader rejects
first the rejection is captured terminally. -/
theorem c4_timeout_semantics (t : ResourceType) (key : ResKey) (maxAge : Int)
    (prefetch : Bool) (timeout : Option Int) (pendingSlice : Slice)
    (now : Int) (s : State)
    (htt : timeoutTruthy timeout = true) :
    ((getRFR_complete t key maxAge prefetch timeout pendingSlice .deadlineWon now s).2.error
        = some (TimeoutError t) ∧
      (getRFR_complete t key maxAge prefetch timeout pendingSlice .deadlineWon now s).2.data
        = none ∧
      (getRFR_complete t key maxAge prefetch timeout pendingSlice .deadlineWon now s).2.loading
        = true ∧
      (getRFR_complete t key maxAge prefetch timeout pendingSlice .deadlineWon now s).2.promise
        = none ∧
      ((getResourceState t key s).isSome = true →
        (getRFR_complete t key maxAge prefetch timeout pendingSlice .deadlineWon now s).1
          = setResourceState t key
              (getRFR_complete t key maxAge prefetch timeout pendingSlice .deadlineWon now s).2
              s)) ∧
    (∀ v : RefId,
      (getRFR_complete t key maxAge prefetch timeout pendingSlice (.loaded v) now s).2.data
        = some v ∧
      (getRFR_complete t key maxAge prefetch timeout pendingSlice (.loaded v) now s).2.loading
        = false ∧
      (getRFR_complete t key maxAge prefetch timeout pendingSlice (.loaded v) now s).2.error
        = none) ∧
    (∀ e : ErrVal,
      (getRFR_complete t key maxAge prefetch timeout pendingSlice (.failed e) now s).2.error
        = some e ∧
      (getRFR_complete t key maxAge prefetch timeout pendingSlice (.failed e) now s).2.loading
        = false) := by
  refine ⟨⟨?_, ?_, ?_, ?_, ?_⟩, fun v => ⟨?_, ?_, ?_⟩, fun e => ⟨?_, ?_⟩⟩
  all_goals first
    | (intro h; simp [getRFR_complete, htt, h])
    | (by_cases hk : (getResourceState t key s).isSome = true <;>
        simp [getRFR_complete, htt, hk])

theorem c4_witness :
    timeoutTruthy (some 100) = true ∧
    (getRFR_complete "A" "k" 1000 false (some 100)
        { sliceA with loading := true, promise := some 7 } .deadlineWon 200
        stateIdle).2.loading = true ∧
    (getRFR_complete "A" "k" 1000 false (some 100)
        { sliceA with loading := true, promise := some 7 } (.loaded 9) 200
        stateIdle).2.data = some 9 :=
  ⟨rfl,
    (c4_timeout_semantics "A" "k" 1000 false (some 100)
      { sliceA with loading := true, promise := some 7 } 200 stateIdle rfl).1.2.2.1,
    ((c4_timeout_semantics "A" "k" 1000 false (some 100)
      { sliceA with loading := true, promise := some 7 } 200 stateIdle rfl).2.1 9).1⟩

/-! ### Association-list lemmas -/

theorem find?_map_keyed {β γ : Type} (f : β → γ) (t : String) :
    ∀ l : List (String × β),
      (l.map (fun e => (e.1, f e.2))).find? (fun e => e.1 == t)
        = (l.find? (fun e => e.1 == t)).map (fun e => (e.1, f e.2))
  | [] => rfl
  | hd :: tl => by
    simp only [List.map_cons, List.find?_cons]
    by_cases h : (hd.1 == t) = true
    · simp [h]
    · simp [h, find?_map_keyed f t tl]

theorem lookupSlice_transformData (d : StoreData) (f : Slice → Slice)
    (t : ResourceType) (k : ResKey) :
    lookupSlice (transformData d f) t k = (lookupSlice d t k).map f := by
  unfold lookupSlice transformData
  rw [find?_map_keyed]
  cases hf : d.find? (fun e => e.1 == t) with
  | none => rfl
  | some e =>
    dsimp only [Option.map_some', Option.some_bind]
    rw [find?_map_keyed]
    cases e.2.find? (fun kv => kv.1 == k) <;> rfl

theorem find?_filter_key_none {β : Type} (k : String) :
    ∀ m : List (String × β),
      (m.filter (fun kv => !(kv.1 == k))).find? (fun kv => kv.1 == k) = none
  | [] => rfl
  | hd :: tl => by
    simp only [List.filter_cons]
    by_cases h : (hd.1 == k) = true
    · simp [h, find?_filter_key_none k tl]
    · simp only [h, Bool.not_false, if_true, List.find?_cons]
      simp [h, find?_filter_key_none k tl]

theorem objInsert_cons_ne {β : Type} (k : String) (v : β) (hd : String × β)
    (tl : List (String × β)) (h : (hd.1 == k) = false) :
    objInsert k v (hd :: tl) = hd :: objInsert k v tl := by
  have h' : ¬ hd.1 = k := by simpa using h
  by_cases ha : tl.any (fun e => e.1 == k) <;> simp [objInsert, h, ha] <;>
    exact fun hk => absurd hk h'

theorem objInsert_find?_self {β : Type} (k : String) (v : β) :
    ∀ m : List (String × β),
      (objInsert k v m).find? (fun e => e.1 == k) = some (k, v)
  | [] => by
    rw [show objInsert k v [] = [(k, v)] by simp [objInsert]]
    simp [List.find?_cons]
  | hd :: tl => by
    by_cases h : (hd.1 == k) = true
    · have h' : hd.1 = k := by simpa using h
      have hrw : objInsert k v (hd :: tl)
          = (k, v) :: tl.map (fun e => if e.1 == k then (k, v) else e) := by
        simp [objInsert, h, h']
      rw [hrw]
      simp [List.find?_cons]
    · rw [objInsert_cons_ne k v hd tl (by simpa using h)]
      simp only [List.find?_cons]
      simp [h, objInsert_find?_self k v tl]

theorem lookupSlice_delete_none (t : ResourceType) (k : ResKey) (s : State)
    (hex : (lookupSlice s.data t k).isSome = true) :
    lookupSlice (deleteResourceState t k s).data t k = none := by
  unfold deleteResourceState
  cases hf : s.data.find? (fun e => e.1 == t) with
  | none =>
    exfalso
    unfold lookupSlice at hex
    rw [hf] at hex
    simp at hex
  | some e =>
    unfold lookupSlice
    dsimp only
    rw [objInsert_find?_self]
    dsimp only [Option.some_bind]
    rw [find?_filter_key_none]
    rfl

/-! ### Claims C8 and C10 -/

/-- C8: the safe snapshot maps each slice pointwise: `promise`, `expiresAt`
and `accessedAt` are stripped to null, `error` is null for error-free slices
and otherwise the encoded form of the error (a non-`Error` value being
wrapped in an `Error` first), and `loading` is forced to `false` unless the
error is an `instanceof TimeoutError`, in which case the original `loading`
is preserved. -/
theorem c8_safe_data (s : State) (t : ResourceType) (k : ResKey) :
    lookupSlice (getSafeData s) t k = (lookupSlice s.data t k).map safeSlice ∧
    (∀ sl : Slice,
      (safeSlice sl).promise = none ∧ (safeSlice sl).expiresAt = none ∧
      (safeSlice sl).accessedAt = none ∧ (safeSlice sl).data = sl.data) ∧
    (∀ sl : Slice, sl.error = none →
      (safeSlice sl).error = none ∧ (safeSlice sl).loading = false) ∧
    (∀ (sl : Slice) (e : ErrVal), sl.error = some e →
      (safeSlice sl).error
          = some (serializeError (if e.isError then e else wrapNonError e)) ∧
      (safeSlice sl).loading = (if e.isTimeout then sl.loading else false)) := by
  refine ⟨lookupSlice_transformData s.data safeSlice t k, ?_, ?_, ?_⟩
  · intro sl
    simp [safeSlice]
  · intro sl h
    simp [safeSlice, h]
  · intro sl e h
    simp [safeSlice, h]

theorem c8_witness :
    lookupSlice (getSafeData stateIdle) "A" "k"
        = (lookupSlice stateIdle.data "A" "k").map safeSlice ∧
    (safeSlice sliceA).expiresAt = none ∧
    ((safeSlice sliceA).error = none ∧ (safeSlice sliceA).loading = false) ∧
    ((safeSlice { sliceA with error := some (TimeoutError "A"), loading := true }).error
        = some (serializeError (TimeoutError "A")) ∧
      (safeSlice { sliceA with error := some (TimeoutError "A"), loading := true }).loading
        = true) :=
  ⟨(c8_safe_data stateIdle "A" "k").1,
    ((c8_safe_data stateIdle "A" "k").2.1 sliceA).2.1,
    (c8_safe_data stateIdle "A" "k").2.2.1 sliceA rfl,
    by
      have := (c8_safe_data stateIdle "A" "k").2.2.2
        { sliceA with error := some (TimeoutError "A"), loading := true }
        (TimeoutError "A") rfl
      simpa [TimeoutError] using this⟩

/-- C10: one pass of `cleanExpiredResources` deletes the slice for the
computed (type, key) iff it exists and its `expiresAt` is falsy (null or 0)
or strictly less than the current time; a null `expiresAt` — the shape
`getSafeData` gives every exported slice — always satisfies the deletion
test even though `shouldUseCache` treats it as fresh. -/
theorem c10_clean_expired (resource : RouteResource) (routerCtx : RCtx)
    (ctx : Ctx) (now : Int) (s : State) :
    (∀ sl : Slice,
      getResourceState resource.type (resource.getKey routerCtx ctx) s = some sl →
      expiredOrFalsy sl.expiresAt now = true →
      cleanStep routerCtx ctx now s resource
          = deleteResourceState resource.type (resource.getKey routerCtx ctx) s ∧
        lookupSlice (cleanStep routerCtx ctx now s resource).data resource.type
          (resource.getKey routerCtx ctx) = none) ∧
    (∀ sl : Slice,
      getResourceState resource.type (resource.getKey routerCtx ctx) s = some sl →
      expiredOrFalsy sl.expiresAt now = false →
      cleanStep routerCtx ctx now s resource = s) ∧
    (getResourceState resource.type (resource.getKey routerCtx ctx) s = none →
      cleanStep routerCtx ctx now s resource = s) ∧
    (∀ resources : List RouteResource, ∀ s0 : State,
      cleanExpiredResources resources routerCtx now s0
        = resources.foldl (cleanStep routerCtx s0.context now) s0) ∧
    (∀ sl : Slice, (safeSlice sl).expiresAt = none) ∧
    (expiredOrFalsy none now = true) ∧
    (∀ sl : Slice, sl.expiresAt = none → sl.loading = false → sl.error = none →
      shouldUseCache (some sl) now = true) := by
  refine ⟨?_, ?_, ?_, fun _ _ => rfl, fun sl => by simp [safeSlice], rfl, ?_⟩
  · intro sl hget hexp
    have hdel : cleanStep routerCtx ctx now s resource
        = deleteResourceState resource.type (resource.getKey routerCtx ctx) s := by
      simp [cleanStep, hget, hexp]
    refine ⟨hdel, ?_⟩
    rw [hdel]
    exact lookupSlice_delete_none _ _ s (by
      have : lookupSlice s.data resource.type (resource.getKey routerCtx ctx) = some sl := hget
      simp [this])
  · intro sl hget hexp
    simp [cleanStep, hget, hexp]
  · intro hget
    simp [cleanStep, hget]
  · intro sl h1 h2 h3
    simp [shouldUseCache, h1, h2, h3]

def sliceNullExpiry : Slice :=
  { data := some 1, error := none, loading := false, promise := none,
    expiresAt := none, accessedAt := none, key := "k" }

def stateNullExpiry : State :=
  { data := [("A", [("k", sliceNullExpiry)])], context := [], executing := none }

theorem c10_witness :
    (cleanStep 0 [] 777 stateNullExpiry resA
        = deleteResourceState "A" "k" stateNullExpiry ∧
      lookupSlice (cleanStep 0 [] 777 stateNullExpiry resA).data "A" "k" = none) ∧
    shouldUseCache (some sliceNullExpiry) 777 = true :=
  ⟨(c10_clean_expired resA 0 [] 777 stateNullExpiry).1 sliceNullExpiry rfl rfl,
    (c10_clean_expired resA 0 [] 777 stateNullExpiry).2.2.2.2.2.2 sliceNullExpiry
      rfl rfl rfl⟩

/-! ### Claim C3 (corrected) -/

def sliceTimeoutLive : Slice :=
  { data := none, error := some (TimeoutError "A"), loading := true,
    promise := none, expiresAt := some 500, accessedAt := some 0, key := "k" }

def stateLive : State :=
  { data := [("A", [("k", sliceTimeoutLive)])], context := [("c", "1")],
    executing := none }

def snapshotB : StoreData := [("B", [("x", sliceA)])]

/-- C3 counterexample: hydrating into a non-empty cache does discard the
snapshot's data, but it does NOT leave every existing slice untouched: a
live slice carrying a timeout-kind error (with `loading = true` and a future
`expiresAt`, exactly the state a timed-out in-flight fetch leaves behind)
has its `expiresAt` forced into the past, its `loading` forced to `false`,
and its error re-encoded. -/
theorem c3_counterexample :
    stateLive.data ≠ [] ∧
    lookupSlice stateLive.data "A" "k" = some sliceTimeoutLive ∧
    sliceTimeoutLive.loading = true ∧
    sliceTimeoutLive.expiresAt = some 500 ∧
    lookupSlice (hydrate (some snapshotB) none 1000 stateLive).data "A" "k"
      = some { sliceTimeoutLive with
          expiresAt := some 999, loading := false,
          error := some (deserializeError (TimeoutError "A")) } ∧
    lookupSlice (hydrate (some snapshotB) none 1000 stateLive).data "B" "x"
      = none := by
  refine ⟨by decide, by decide, rfl, rfl, by decide, by decide⟩

/-- C3 (amended): `hydrate` never overwrites a non-empty cache's data with
the snapshot (and installs the snapshot only into an empty cache), but in
either case every slice of the resulting mapping passes through the
error-decoding normalization: a slice with no error is unchanged, a slice
whose decoded error is named `TimeoutError` gets `expiresAt` strictly in the
past and `loading = false`, and any other errored slice has only its error
decoded. -/
theorem c3_hydrate_amended :
    (∀ (rd : Option StoreData) (rc : Option Ctx) (now : Int) (s : State),
      s.data ≠ [] →
      (hydrate rd rc now s).data = transformData s.data (hydrateSlice now)) ∧
    (∀ (rd : Option StoreData) (rc : Option Ctx) (now : Int) (s : State)
       (d : StoreData),
      s.data = [] → rd = some d → d ≠ [] →
      (hydrate rd rc now s).data = transformData d (hydrateSlice now)) ∧
    (∀ (now : Int) (sl : Slice), sl.error = none → hydrateSlice now sl = sl) ∧
    (∀ (now : Int) (sl : Slice) (e : ErrVal), sl.error = some e →
      e.name = "TimeoutError" →
      hydrateSlice now sl
        = { sl with
            expiresAt := some (now - 1), loading := false,
            error := some (deserializeError e) }) ∧
    (∀ (now : Int) (sl : Slice) (e : ErrVal), sl.error = some e →
      e.name ≠ "TimeoutError" →
      hydrateSlice now sl = { sl with error := some (deserializeError e) }) := by
  refine ⟨?_, ?_, ?_, ?_, ?_⟩
  · intro rd rc now s h
    cases hd : s.data with
    | nil => exact absurd hd h
    | cons a l =>
      cases rd with
      | none => simp [hydrate, getNextStateValue, hd]
      | some n => simp [hydrate, getNextStateValue, hd]
  · intro rd rc now s d h hrd hne
    subst hrd
    have : d.isEmpty = false := by
      cases d with
      | nil => exact absurd rfl hne
      | cons a l => rfl
    simp [hydrate, getNextStateValue, h, this]
  · intro now sl h
    cases sl with
    | mk d e l p x a k => simp_all [hydrateSlice]
  · intro now sl e h hname
    cases sl with
    | mk d er l p x a k =>
      simp_all [hydrateSlice, deserializeError, hname]
  · intro now sl e h hname
    cases sl with
    | mk d er l p x a k =>
      simp_all [hydrateSlice, deserializeError, hname]

theorem c3_amended_witness :
    (hydrate (some snapshotB) none 1000 stateLive).data
        = transformData stateLive.data (hydrateSlice 1000) ∧
    hydrateSlice 1000 sliceA = sliceA ∧
    hydrateSlice 1000 sliceTimeoutLive
        = { sliceTimeoutLive with
            expiresAt := some (1000 - 1), loading := false,
            error := some (deserializeError (TimeoutError "A")) } :=
  ⟨c3_hydrate_amended.1 (some snapshotB) none 1000 stateLive (by decide),
    c3_hydrate_amended.2.2.1 1000 sliceA rfl,
    c3_hydrate_amended.2.2.2.1 1000 sliceTimeoutLive (TimeoutError "A") rfl rfl⟩

/-! ### Claim C2 (corrected) -/

theorem executeForDependents_get? (t : ResourceType)
    (mk : RouteResource → ActionV) (s : State) (cur : Round) (i : Nat)
    (hs : s.executing = some cur)
    (hidx : cur.findIdx? (fun e => e.1.type == t) = some i)
    (j : Nat) (hj : j < cur.length) :
    ((executeForDependents t mk s).executing.getD []).get? j
      = some (if i < j ∧ t ∈ (cur.get ⟨j, hj⟩).1.depends.getD []
              then ((cur.get ⟨j, hj⟩).1, some (mk (cur.get ⟨j, hj⟩).1))
              else cur.get ⟨j, hj⟩) := by
  simp only [executeForDependents, hs, hidx, Option.getD_some]
  have hlen : j < (cur.mapIdx (fun j e =>
      if i < j ∧ t ∈ e.1.depends.getD []
      then (e.1, some (mk e.1)) else e)).length := by
    simpa [List.length_mapIdx] using hj
  rw [List.get?_eq_get hlen, List.get_mapIdx]

theorem setResourceState_executing (t : ResourceType) (k : ResKey) (sl : Slice)
    (s : State) : (setResourceState t k sl s).executing = s.executing := rfl

theorem validateLRUCache_executing (r : RouteResource) (k : ResKey) (s : State) :
    (validateLRUCache r k s).executing = s.executing := by
  unfold validateLRUCache
  cases r.maxCache with
  | none => rfl
  | some n =>
    dsimp only
    split <;> rfl

/-- C2 counterexample: inside an active round, resource A's remote fetch
path commits a pending slice whose `data` (a cached value with identity 5)
is identical to the `data` it replaced — no `data` change at all — and yet
the dependent entry B, positioned after A, has its pending action replaced
(action 11 becomes the freshly created action 42).  So a pending-action
replacement is performed without any commit whose `data` differs. -/
theorem c2_counterexample :
    (getRFR_sync resA 0 false (fun _ _ => 7) 100 (fun _ => 42) stateInRound).2
      = .pending { sliceA with
          loading := true, promise := some 7, accessedAt := some 100 } ∧
    ({ sliceA with
       loading := true, promise := some 7, accessedAt := some 100 } : Slice).data
      = sliceA.data ∧
    (getRFR_sync resA 0 false (fun _ _ => 7) 100 (fun _ => 42) stateInRound).1.executing
      = some [(resA, some 10), (resB, some 42)] :=
  ⟨rfl, rfl, rfl⟩

/-- C2 (amended): within an active round, the pending-action replacement is
performed for exactly the entries strictly after the trigger's index whose
`depends` includes the trigger's type; `updateResourceState` triggers this
propagation iff the committed `data` differs from the previous `data`, while
the remote fetch path triggers it on every pending commit, regardless of
whether the pending slice's `data` changed. -/
theorem c2_dependents_amended :
    (∀ (t : ResourceType) (mk : RouteResource → ActionV) (s : State)
       (cur : Round) (i : Nat),
      s.executing = some cur →
      cur.findIdx? (fun e => e.1.type == t) = some i →
      ∀ (j : Nat) (hj : j < cur.length),
        ((executeForDependents t mk s).executing.getD []).get? j
          = some (if i < j ∧ t ∈ (cur.get ⟨j, hj⟩).1.depends.getD []
                  then ((cur.get ⟨j, hj⟩).1, some (mk (cur.get ⟨j, hj⟩).1))
                  else cur.get ⟨j, hj⟩)) ∧
    (∀ (resource : RouteResource) (routerCtx : RCtx)
       (f : Option RefId → Option RefId) (now : Int)
       (mk : RouteResource → ActionV) (s : State),
      f (getSliceForResource s.data resource.type
           (resource.getKey routerCtx s.context)).data
          = (getSliceForResource s.data resource.type
              (resource.getKey routerCtx s.context)).data →
      (updateResourceState resource routerCtx f now mk s).executing
        = s.executing) ∧
    (∀ (resource : RouteResource) (routerCtx : RCtx)
       (f : Option RefId → Option RefId) (now : Int)
       (mk : RouteResource → ActionV) (s : State),
      f (getSliceForResource s.data resource.type
           (resource.getKey routerCtx s.context)).data
          ≠ (getSliceForResource s.data resource.type
              (resource.getKey routerCtx s.context)).data →
      updateResourceState resource routerCtx f now mk s
        = executeForDependents resource.type mk
            (setResourceState resource.type (resource.getKey routerCtx s.context)
              { getSliceForResource s.data resource.type
                  (resource.getKey routerCtx s.context) with
                data := f (getSliceForResource s.data resource.type
                  (resource.getKey routerCtx s.context)).data,
                expiresAt := some (getExpiresAt now resource.maxAge),
                accessedAt := some now }
              s)) ∧
    (∀ (resource : RouteResource) (routerCtx : RCtx) (prefetch : Bool)
       (getData : Bool → Option (List (ResourceType × Slice)) → RefId)
       (now : Int) (mk : RouteResource → ActionV) (s : State)
       (cur : Round) (i : Nat),
      (getSliceForResource s.data resource.type
          (resource.getKey routerCtx s.context)).loading = false →
      (getSliceForResource s.data resource.type
          (resource.getKey routerCtx s.context)).data
          ≠ some (getData prefetch (getDependenciesVal resource routerCtx
              (validateLRUCache resource
                (resource.getKey routerCtx s.context) s))) →
      s.executing = some cur →
      cur.findIdx? (fun e => e.1.type == resource.type) = some i →
      ∀ (j : Nat) (hj : j < cur.length), i < j →
        resource.type ∈ (cur.get ⟨j, hj⟩).1.depends.getD [] →
        (((getRFR_sync resource routerCtx prefetch getData now mk s).1.executing).getD
            []).get? j
          = some ((cur.get ⟨j, hj⟩).1, some (mk (cur.get ⟨j, hj⟩).1))) := by
  refine ⟨executeForDependents_get?, ?_, ?_, ?_⟩
  · intro resource routerCtx f now mk s heq
    simp [updateResourceState, heq, setResourceState_executing]
  · intro resource routerCtx f now mk s hne
    simp [updateResourceState, hne]
  · intro resource routerCtx prefetch getData now mk s cur i hload hne hs hidx j hj
      hij hdep
    have hrw : (getRFR_sync resource routerCtx prefetch getData now mk s).1
        = executeForDependents resource.type mk
            (setResourceState resource.type (resource.getKey routerCtx s.context)
              { getSliceForResource s.data resource.type
                  (resource.getKey routerCtx s.context) with
                data := if resource.maxAge = 0 then none
                  else (getSliceForResource s.data resource.type
                    (resource.getKey routerCtx s.context)).data,
                error := if resource.maxAge = 0 then none
                  else (getSliceForResource s.data resource.type
                    (resource.getKey routerCtx s.context)).error,
                loading := true,
                promise := some (getData prefetch (getDependenciesVal resource
                  routerCtx (validateLRUCache resource
                    (resource.getKey routerCtx s.context) s))),
                accessedAt := some now }
              (validateLRUCache resource
                (resource.getKey routerCtx s.context) s)) := by
      simp [getRFR_sync, hload, hne]
    rw [hrw]
    have hs2 : ∀ sl : Slice, (setResourceState resource.type
        (resource.getKey routerCtx s.context) sl
        (validateLRUCache resource (resource.getKey routerCtx s.context) s)).executing
        = some cur := by
      intro sl
      rw [setResourceState_executing, validateLRUCache_executing]
      exact hs
    rw [executeForDependents_get? resource.type mk _ cur i (hs2 _) hidx j hj]
    rw [if_pos ⟨hij, hdep⟩]

theorem c2_amended_witness :
    ((executeForDependents "A" (fun _ => 42) stateInRound).executing.getD
        []).get? 1 = some (resB, some 42) ∧
    (((getRFR_sync resA 0 false (fun _ _ => 7) 100 (fun _ => 42)
        stateInRound).1.executing).getD []).get? 1 = some (resB, some 42) := by
  constructor
  · have h := c2_dependents_amended.1 "A" (fun _ => 42) stateInRound
      [(resA, some 10), (resB, some 11)] 0 rfl rfl 1 (by decide)
    simpa using h
  · have h := c2_dependents_amended.2.2.2 resA 0 false (fun _ _ => 7) 100
      (fun _ => 42) stateInRound [(resA, some 10), (resB, some 11)] 0 rfl
      (by decide) rfl rfl 1 (by decide) (by decide) (by decide)
    simpa using h

/-! ### Claim C9 -/

/-- C9: if, after a round is installed, the in-round dispatch loop throws
(in particular when a dispatched action throws synchronously), then
`executeTuples` propagates that exception, the resulting state still holds a
round in `executing` (the reset to null runs only after the whole loop
completes without throwing), and every subsequent `executeTuples` call on
that state fails with the re-entrancy error. -/
theorem c9_throw_keeps_round {R : Type}
    (dA : ActionV → State → State × Except String R)
    (routeResources : Option (List RouteResource)) (rr : List RouteResource)
    (tuples : List (RouteResource × ActionV)) (s s2 : State) (e : String)
    (hrr : routeResources = some rr)
    (hs : s.executing = none)
    (hpres : ∀ a st, st.executing.isSome = true →
      ((dA a st).1.executing.isSome = true))
    (htrig : (triggersOf routeResources).isEmpty = false)
    (hany : tuples.any
      (fun tu => (triggersOf routeResources).contains tu.1.type) = true)
    (hloop : roundLoop dA
        ((buildRound rr tuples (triggersOf routeResources)).map
          (fun en => en.1.type)) 0
        { s with executing := some (buildRound rr tuples
            (triggersOf routeResources)) } [] = (s2, .error e)) :
    executeTuples dA routeResources tuples s = (s2, .error e) ∧
    s2.executing.isSome = true ∧
    (∀ (R2 : Type) (dA2 : ActionV → State → State × Except String R2)
       (rr2 : Option (List RouteResource))
       (tuples2 : List (RouteResource × ActionV)),
      executeTuples dA2 rr2 tuples2 s2 = (s2, .error reentrancyMsg)) := by
  subst hrr
  have hsome : s.executing.isSome = false := by rw [hs]; rfl
  have h2 : s2.executing.isSome = true := by
    have hpre := roundLoop_preserves_isSome dA hpres
      ((buildRound rr tuples (triggersOf (some rr))).map (fun en => en.1.type)) 0
      { s with executing := some (buildRound rr tuples (triggersOf (some rr))) }
      [] rfl
    rw [hloop] at hpre
    exact hpre
  refine ⟨?_, h2,
    fun R2 dA2 rr2 tuples2 => executeTuples_reentrant dA2 rr2 tuples2 s2 h2⟩
  simp only [executeTuples, hsome, Bool.false_eq_true, if_false, htrig,
    Bool.not_false, hany, Bool.and_self, if_true]
  rw [hloop]

def roundW : Round := buildRound [resA, resB] [(resA, 10)] (triggersOf (some [resA, resB]))

def s2W : State := { stateIdle with executing := some roundW }

theorem c9_witness :
    executeTuples (R := Nat) (fun _ st => (st, .error "boom"))
        (some [resA, resB]) [(resA, 10)] stateIdle = (s2W, .error "boom") ∧
    s2W.executing.isSome = true ∧
    executeTuples (R := Nat) (fun _ st => (st, .ok 0)) (some [resA, resB])
        [(resA, 10)] s2W = (s2W, .error reentrancyMsg) :=
  have h := c9_throw_keeps_round (R := Nat) (fun _ st => (st, .error "boom"))
    (some [resA, resB]) [resA, resB] [(resA, 10)] stateIdle s2W "boom" rfl rfl
    (fun _ _ hh => hh) rfl rfl rfl
  ⟨h.1, h.2.1, h.2.2 Nat (fun _ st => (st, .ok 0)) (some [resA, resB]) [(resA, 10)]⟩

/-! ### Claim C1: ordering of dependency lookups in a round -/

theorem sublist_indexOf_lt {l L : List String} (hsub : List.Sublist l L)
    (hnd : L.Nodup) {a b : String} (ha : a ∈ l) (hb : b ∈ l)
    (hord : L.indexOf a < L.indexOf b) : l.indexOf a < l.indexOf b := by
  induction hsub with
  | slnil => simp at ha
  | @cons l' L' c hs ih =>
    have hndL : L'.Nodup := (List.nodup_cons.mp hnd).2
    have hcL : c ∉ L' := (List.nodup_cons.mp hnd).1
    have haL : a ∈ L' := hs.subset ha
    have hbL : b ∈ L' := hs.subset hb
    have hca : c ≠ a := fun h => hcL (h ▸ haL)
    have hcb : c ≠ b := fun h => hcL (h ▸ hbL)
    rw [List.indexOf_cons_ne _ hca, List.indexOf_cons_ne _ hcb] at hord
    exact ih hndL ha hb (Nat.lt_of_succ_lt_succ hord)
  | @cons₂ l' L' c hs ih =>
    have hndL : L'.Nodup := (List.nodup_cons.mp hnd).2
    have hcL : c ∉ L' := (List.nodup_cons.mp hnd).1
    by_cases hac : a = c
    · subst hac
      have hba : b ≠ a := by
        intro h
        rw [h] at hord
        exact absurd hord (lt_irrefl _)
      rw [List.indexOf_cons_self]
      rw [List.indexOf_cons_ne _ (Ne.symm hba)]
      exact Nat.succ_pos _
    · by_cases hbc : b = c
      · subst hbc
        rw [List.indexOf_cons_self] at hord
        exact absurd hord (Nat.not_lt_zero _)
      · have ha' : a ∈ l' := by
          rcases List.mem_cons.mp ha with h | h
          · exact absurd h hac
          · exact h
        have hb' : b ∈ l' := by
          rcases List.mem_cons.mp hb with h | h
          · exact absurd h hbc
          · exact h
        have hca : c ≠ a := fun h => hac h.symm
        have hcb : c ≠ b := fun h => hbc h.symm
        rw [List.indexOf_cons_ne _ hca, List.indexOf_cons_ne _ hcb] at hord
        rw [List.indexOf_cons_ne _ hca, List.indexOf_cons_ne _ hcb]
        exact Nat.succ_lt_succ (ih hndL ha' hb' (Nat.lt_of_succ_lt_succ hord))

/-- C1: for a resource at position `i` of an active round that was built
from a route list with unique types whose dependency edges all point to
earlier-declared resources (the §3 ordering invariant), `getDependencies`
returns exactly the (type, slice) pairs of the round entries whose type is
in the resource's non-empty `depends` list, and no entry positioned strictly
after `i` ever has its type in that list — only backward edges are visible. -/
theorem c1_dependencies_backward (rr : List RouteResource) (round : Round)
    (s : State) (r : RouteResource) (i : Nat) (hi : i < round.length)
    (ctx : RCtx) (dep : List ResourceType)
    (hnd : (rr.map (fun x => x.type)).Nodup)
    (hsub : List.Sublist (round.map (fun en => en.1.type))
      (rr.map (fun x => x.type)))
    (hmem : ∀ en ∈ round, en.1 ∈ rr)
    (hinv : ∀ x ∈ rr, ∀ d ∈ x.depends.getD [],
      (rr.map (fun y => y.type)).indexOf d
        < (rr.map (fun y => y.type)).indexOf x.type)
    (hexec : s.executing = some round)
    (hr : (round.get ⟨i, hi⟩).1 = r)
    (hdep : r.depends = some dep) (hdepne : dep ≠ []) :
    getDependenciesVal r ctx s
      = some (objFromEntries ((round.filter
          (fun en => dep.contains en.1.type)).map (fun en =>
            (en.1.type, getSliceForResource s.data en.1.type
              (en.1.getKey ctx s.context))))) ∧
    ∀ (j : Nat) (hj : j < round.length), i < j →
      (round.get ⟨j, hj⟩).1.type ∉ dep := by
  constructor
  · have hne : dep.isEmpty = false := by
      cases dep with
      | nil => exact absurd rfl hdepne
      | cons a l => rfl
    simp [getDependenciesVal, hexec, hdep, hne]
  · intro j hj hij hmemd
    have hjT : j < (round.map (fun en => en.1.type)).length := by simpa using hj
    have hiT : i < (round.map (fun en => en.1.type)).length := by simpa using hi
    have hndR : (round.map (fun en => en.1.type)).Nodup := hnd.sublist hsub
    have hgetj : (round.map (fun en => en.1.type)).get ⟨j, hjT⟩
        = (round.get ⟨j, hj⟩).1.type := by
      simp [List.get_eq_getElem, List.getElem_map]
    have hgeti : (round.map (fun en => en.1.type)).get ⟨i, hiT⟩ = r.type := by
      have hr2 : (round.get ⟨i, hi⟩).1 = r := hr
      rw [List.get_eq_getElem] at hr2
      simp [List.get_eq_getElem, List.getElem_map, hr2]
    have hdT : (round.get ⟨j, hj⟩).1.type ∈ round.map (fun en => en.1.type) := by
      rw [← hgetj]
      exact List.get_mem _ _ _
    have hrT : r.type ∈ round.map (fun en => en.1.type) := by
      rw [← hgeti]
      exact List.get_mem _ _ _
    have hrmem : r ∈ rr := by
      rw [← hr]
      exact hmem _ (List.get_mem _ _ _)
    have hlt : (rr.map (fun y => y.type)).indexOf ((round.get ⟨j, hj⟩).1.type)
        < (rr.map (fun y => y.type)).indexOf r.type := by
      refine hinv r hrmem _ ?_
      rw [hdep]
      simpa using hmemd
    have hltR : (round.map (fun en => en.1.type)).indexOf
          ((round.get ⟨j, hj⟩).1.type)
        < (round.map (fun en => en.1.type)).indexOf r.type :=
      sublist_indexOf_lt hsub hnd hdT hrT hlt
    have hjpos : (round.map (fun en => en.1.type)).indexOf
        ((round.get ⟨j, hj⟩).1.type) = j := by
      have h := List.get_indexOf hndR ⟨j, hjT⟩
      rwa [hgetj] at h
    have hipos : (round.map (fun en => en.1.type)).indexOf r.type = i := by
      have h := List.get_indexOf hndR ⟨i, hiT⟩
      rwa [hgeti] at h
    rw [hjpos, hipos] at hltR
    exact absurd hij (Nat.lt_asymm hltR)

theorem c1_witness :
    getDependenciesVal resB 0 stateInRound
      = some (objFromEntries (([(resA, some 10), (resB, some 11)].filter
          (fun en => (["A"] : List ResourceType).contains en.1.type)).map
            (fun en => (en.1.type, getSliceForResource stateInRound.data
              en.1.type (en.1.getKey 0 stateInRound.context))))) :=
  (c1_dependencies_backward [resA, resB] [(resA, some 10), (resB, some 11)]
    stateInRound resB 1 (by decide) 0 ["A"] (by decide) (List.Sublist.refl _)
    (by
      intro en hen
      rcases List.mem_cons.mp hen with h | h
      · rw [h]
        exact List.mem_cons_self _ _
      · rcases List.mem_cons.mp h with h2 | h2
        · rw [h2]
          exact List.mem_cons_of_mem _ (List.mem_cons_self _ _)
        · simp at h2)
    (by
      intro x hx d hd
      rcases List.mem_cons.mp hx with h | h
      · rw [h] at hd
        simp [resA] at hd
      · rcases List.mem_cons.mp h with h2 | h2
        · rw [h2] at hd
          simp [resB] at hd
          subst hd
          rw [h2]
          decide
        · simp at h2)
    rfl rfl rfl (by decide)).1

/-! ### Provenance of C1's round hypotheses: rounds built by `executeTuples`
satisfy them, and in-round mutation by `executeForDependents` preserves
them. -/

def pickTuple (tuples : List (RouteResource × ActionV))
    (resource : RouteResource) : RoundEntry :=
  match tuples.find? (fun tu => tu.1.type == resource.type) with
  | some tu => (tu.1, some tu.2)
  | none => (resource, none)

theorem buildRound_eq_flatMap (rr : List RouteResource)
    (tuples : List (RouteResource × ActionV)) (triggers : List ResourceType) :
    buildRound rr tuples triggers
      = rr.flatMap (fun r =>
          if execCond triggers r then [pickTuple tuples r] else []) := by
  have aux : ∀ (l : List RouteResource) (acc : Round),
      l.foldl (fun acc resource =>
        if execCond triggers resource then
          acc ++ [match tuples.find? (fun tu => tu.1.type == resource.type) with
                  | some tu => (tu.1, some tu.2)
                  | none => (resource, none)]
        else acc) acc
      = acc ++ l.flatMap (fun r =>
          if execCond triggers r then [pickTuple tuples r] else []) := by
    intro l
    induction l with
    | nil => intro acc; simp
    | cons x xs ih =>
      intro acc
      simp only [List.foldl_cons, List.flatMap_cons]
      by_cases hc : execCond triggers x = true
      · rw [if_pos hc, ih, if_pos hc]
        simp [pickTuple, List.append_assoc]
      · rw [if_neg hc, ih, if_neg hc]
        simp
  unfold buildRound
  rw [aux]
  simp

theorem pickTuple_type (tuples : List (RouteResource × ActionV))
    (r : RouteResource) : (pickTuple tuples r).1.type = r.type := by
  unfold pickTuple
  cases hf : tuples.find? (fun tu => tu.1.type == r.type) with
  | none => rfl
  | some tu =>
    have h := List.find?_some hf
    simpa using h

theorem buildRound_types (rr : List RouteResource)
    (tuples : List (RouteResource × ActionV)) (triggers : List ResourceType) :
    (buildRound rr tuples triggers).map (fun en => en.1.type)
      = (rr.filter (execCond triggers)).map (fun x => x.type) := by
  rw [buildRound_eq_flatMap]
  induction rr with
  | nil => rfl
  | cons x xs ih =>
    simp only [List.flatMap_cons, List.filter_cons]
    by_cases hc : execCond triggers x = true
    · simp [hc, pickTuple_type, ih]
    · simp [hc, ih]

theorem buildRound_types_sublist (rr : List RouteResource)
    (tuples : List (RouteResource × ActionV)) (triggers : List ResourceType) :
    List.Sublist ((buildRound rr tuples triggers).map (fun en => en.1.type))
      (rr.map (fun x => x.type)) := by
  rw [buildRound_types]
  exact List.Sublist.map _ (List.filter_sublist _)

theorem buildRound_resources_mem (rr : List RouteResource)
    (tuples : List (RouteResource × ActionV)) (triggers : List ResourceType)
    (htu : ∀ tu ∈ tuples, tu.1 ∈ rr) :
    ∀ en ∈ buildRound rr tuples triggers, en.1 ∈ rr := by
  rw [buildRound_eq_flatMap]
  intro en hen
  rw [List.mem_flatMap] at hen
  obtain ⟨r, hr, hin⟩ := hen
  by_cases hc : execCond triggers r = true
  · rw [if_pos hc, List.mem_singleton] at hin
    subst hin
    unfold pickTuple
    cases hf : tuples.find? (fun tu => tu.1.type == r.type) with
    | none => exact hr
    | some tu => exact htu tu (List.mem_of_find?_eq_some hf)
  · rw [if_neg hc] at hin
    simp at hin

theorem executeForDependents_resources (t : ResourceType)
    (mk : RouteResource → ActionV) (s : State) (cur : Round)
    (hs : s.executing = some cur) :
    ∃ cur', (executeForDependents t mk s).executing = some cur' ∧
      cur'.map (fun en => en.1) = cur.map (fun en => en.1) := by
  cases hidx : cur.findIdx? (fun e => e.1.type == t) with
  | none =>
    refine ⟨cur, ?_, rfl⟩
    simp [executeForDependents, hs, hidx]
  | some i =>
    refine ⟨cur.mapIdx (fun j e =>
      if i < j ∧ t ∈ e.1.depends.getD [] then (e.1, some (mk e.1)) else e),
      ?_, ?_⟩
    · simp [executeForDependents, hs, hidx]
    · apply List.ext_get
      · simp
      · intro n h1 h2
        rw [List.get_map, List.get_map, List.get_mapIdx]
        dsimp only
        split <;> rfl
